import Mathlib

/-!
Shallow embedding of the real-time multiplayer session coordinator of the
history-trivia repository (`src/websocket_manager.py`), together with proofs
settling the frozen claims about it.

Modelling conventions:
* Python `dict`s (insertion-ordered, unique keys) become association lists
  (`List (String × α)`), with lookup/update/erase acting on the first
  occurrence of a key.
* A WebSocket connection handle is an opaque `Nat` id; transport faults are
  modelled by a predicate `faulty : Nat → Bool` on handles.
* Outbound JSON messages become a typed inductive `Msg`; a broadcast is the
  list of `(recipient, Msg)` pairs produced, in send order.
* The mutual recursion `broadcast_to_room` ↔ `leave_room` (cleaning up players
  whose send faulted) is defined with an explicit fuel parameter; every
  theorem that touches it either supplies enough fuel or holds for all fuel.
* `asyncio` sleeps are pure delays with no observable effect on the state and
  are elided; the countdown task handle is modelled by a `TimerTask` status.
-/

namespace BrainRace

/-- Association-list lookup: first entry whose key matches
(`dict.get` / `dict[k]` on a Python dict with unique keys). -/
def alookup {α : Type} : List (String × α) → String → Option α
  | [], _ => none
  | (k', v) :: rest, k => if k' = k then some v else alookup rest k

/-- Association-list update: replace the value at the first matching key,
or append a fresh entry (`d[k] = v` on a Python dict). -/
def aset {α : Type} : List (String × α) → String → α → List (String × α)
  | [], k, v => [(k, v)]
  | (k', v') :: rest, k, v =>
      if k' = k then (k, v) :: rest else (k', v') :: aset rest k v

/-- Association-list erase: drop the first matching key (`del d[k]`). -/
def aerase {α : Type} : List (String × α) → String → List (String × α)
  | [], _ => []
  | (k', v') :: rest, k => if k' = k then rest else (k', v') :: aerase rest k

/-- The `Player` dataclass of `websocket_manager.py` (lines 37-62): the live state
of one participant. The `websocket` field holds an opaque connection id. -/
structure Player where
  name : String
  websocket : Nat
  score : Nat := 0
  correct_count : Nat := 0
  streak : Nat := 0
  best_streak : Nat := 0
  current_answer : Option Int := none
  answered : Bool := false
  deriving Repr, DecidableEq

/-- One question dict as consumed by the manager: fields `question`,
`options`, `correct_answer`, `explanation`, `difficulty`, `category`. -/
structure Question where
  question : String
  options : List String
  correct_answer : Int
  explanation : String
  difficulty : String
  category : String
  deriving Repr, DecidableEq

/-- Status of the asyncio task stored in `room.countdown_task`:
`pending s` is a timer created for `s` seconds that may still tick or fire,
`cancelled` a task that received `.cancel()`, `fired` a task whose countdown
loop has exited (it can produce no further ticks). -/
inductive TimerTask where
  | pending (seconds : Nat)
  | cancelled
  | fired
  deriving Repr, DecidableEq

/-- The `RealTimeRoom` dataclass (lines 65-94). `players` keeps the insertion
order of the Python dict; names are unique within a room. -/
structure RealTimeRoom where
  code : String
  host_name : String
  players : List Player := []
  questions : List Question := []
  question_ids : List Nat := []
  current_question_index : Nat := 0
  status : String := "waiting"
  categories : String := ""
  difficulty : String := "progressive"
  countdown_task : Option TimerTask := none
  deriving Repr, DecidableEq

/-- Entry of the roster list built by `_get_player_list` (lines 267-293). -/
structure PlayerInfo where
  name : String
  score : Nat
  correct_count : Nat
  streak : Nat
  answered : Bool
  is_host : Bool
  deriving Repr, DecidableEq

/-- Entry of the `results` list built in `show_answer` (lines 553-560). -/
structure ResultEntry where
  name : String
  answer : Option Int
  correct : Bool
  points_earned : Nat
  score : Nat
  streak : Nat
  deriving Repr, DecidableEq

/-- Entry of the `final_standings` list built in `end_game` (lines 597-609). -/
structure Standing where
  name : String
  score : Nat
  correct_count : Nat
  best_streak : Nat
  deriving Repr, DecidableEq

/-- Typed outbound messages of `websocket_manager.py` (the JSON dicts sent by
the various `broadcast_to_room` / `send_to_player` calls). -/
inductive Msg where
  | room_closed (reason : String)
  | player_left (player : String) (players : List PlayerInfo)
  | countdown (count : Nat)
  | game_start (total_questions : Nat)
  | question (question_number : Nat) (total_questions : Nat) (question_id : Nat)
      (text : String) (choices : List String) (category : String)
      (difficulty : String) (time_limit : Nat)
  | timer (remaining : Nat)
  | player_answered (player : String) (players : List PlayerInfo)
  | answer_result (correct_answer : Int) (explanation : String)
      (results : List ResultEntry) (standings : List PlayerInfo)
  | game_over (standings : List Standing) (total_questions : Nat)
  deriving Repr, DecidableEq

/-- Lookup a player by name in the room's player map
(`room.players.get(name)` / `name in room.players`). -/
def findPlayer (players : List Player) (nm : String) : Option Player :=
  players.find? (fun p => p.name = nm)

/-- In-place mutation of the player stored under `nm` (unique names, so only
the first occurrence is touched, exactly like the Python dict entry). -/
def updPlayer (players : List Player) (nm : String) (f : Player → Player) :
    List Player :=
  match players with
  | [] => []
  | p :: rest =>
      if p.name = nm then f p :: rest else p :: updPlayer rest nm f

/-- Python `del room.players[name]`: remove the entry keyed by `nm`. -/
def removePlayer (players : List Player) (nm : String) : List Player :=
  match players with
  | [] => []
  | p :: rest => if p.name = nm then rest else p :: removePlayer rest nm

/-- Source `_get_player_list` (lines 267-293): roster broadcast payload. -/
def getPlayerList (room : RealTimeRoom) : List PlayerInfo :=
  room.players.map fun p =>
    { name := p.name
      score := p.score
      correct_count := p.correct_count
      streak := p.streak
      answered := p.answered
      is_host := p.name = room.host_name }

/-- Python `sorted(l, key=key, reverse=True)` / `l.sort(key=key, reverse=True)`:
stable descending sort by a `Nat` key.  `List.insertionSort` with the relation
`key b ≤ key a` is exactly stable-descending. -/
def sortByDesc {α : Type} (key : α → Nat) (l : List α) : List α :=
  List.insertionSort (fun a b => key b ≤ key a) l

/-- The lookup `points_map.get(question["difficulty"], 10)` with
`points_map = {"easy": 10, "medium": 20, "hard": 30}` (lines 532-533). -/
def basePoints (difficulty : String) : Nat :=
  if difficulty = "easy" then 10
  else if difficulty = "medium" then 20
  else if difficulty = "hard" then 30
  else 10

/-- Loop body of `show_answer` over one player (lines 537-560): returns the
mutated player together with the `results` entry built for them. -/
def scoreOne (correct_answer : Int) (base_points : Nat) (p : Player) :
    Player × ResultEntry :=
  if p.current_answer = some correct_answer then
    let streak := p.streak + 1
    let best := if streak > p.best_streak then streak else p.best_streak
    let streak_bonus := min (streak - 1) 5 * 2
    let points_earned := base_points + streak_bonus
    let p' : Player :=
      { p with
        correct_count := p.correct_count + 1
        streak := streak
        best_streak := best
        score := p.score + points_earned }
    (p', { name := p'.name, answer := p'.current_answer, correct := true,
           points_earned := points_earned, score := p'.score,
           streak := p'.streak })
  else
    let p' : Player := { p with streak := 0 }
    (p', { name := p'.name, answer := p'.current_answer, correct := false,
           points_earned := 0, score := p'.score, streak := p'.streak })

/-- Source `end_game` (lines 580-620), room-level: set status `finished` and build the
`game_over` broadcast.  (The 60-second grace delay and the registry deletion
that follows it are registry-level concerns outside the room state.) -/
def endGame (room : RealTimeRoom) : RealTimeRoom × List Msg :=
  let room := { room with status := "finished" }
  let final_standings :=
    sortByDesc (fun s => s.score)
      (room.players.map fun p =>
        { name := p.name, score := p.score, correct_count := p.correct_count,
          best_streak := p.best_streak : Standing })
  (room, [Msg.game_over final_standings room.questions.length])

/-- Source `send_question` (lines 389-436), room-level, fault-free transport.
Guards, end-of-quiz hand-off to `end_game`, per-player answer reset, the
`question` broadcast (note: no correct-answer field), and timer creation
(`asyncio.create_task(self._question_timer(room_code, 15))`). -/
def sendQuestion (room : RealTimeRoom) : RealTimeRoom × List Msg :=
  if room.status ≠ "playing" then (room, [])
  else if room.questions.length ≤ room.current_question_index then endGame room
  else
    match room.questions.get? room.current_question_index with
    | none => (room, [])  -- unreachable: the branch guard gives index < length
    | some question =>
      let room :=
        { room with
          players := room.players.map fun (p : Player) =>
            { p with answered := false, current_answer := none } }
      let question_id := room.question_ids.getD room.current_question_index 0
      let msg := Msg.question (room.current_question_index + 1)
        room.questions.length question_id question.question question.options
        question.category question.difficulty 15
      ({ room with countdown_task := some (TimerTask.pending 15) }, [msg])

/-- Source `show_answer` (lines 507-578), room-level, fault-free transport: set
status, score every player, broadcast the sorted results, then (after the
4-second settle delay) advance the index, restore `playing` and fall through
into `send_question`.  The `none` branch of the question lookup mirrors the
fact that Python would fault there; it is unreachable from the call sites,
which only run `show_answer` while a question is pending. -/
def showAnswer (room : RealTimeRoom) : RealTimeRoom × List Msg :=
  let room := { room with status := "showing_answer" }
  match room.questions.get? room.current_question_index with
  | none => (room, [])
  | some question =>
    let correct_answer := question.correct_answer
    let base_points := basePoints question.difficulty
    let pairs := room.players.map (scoreOne correct_answer base_points)
    let room := { room with players := pairs.map Prod.fst }
    let results := sortByDesc (fun r => r.score) (pairs.map Prod.snd)
    let msg := Msg.answer_result correct_answer question.explanation results
      (getPlayerList room)
    let room :=
      { room with
        current_question_index := room.current_question_index + 1
        status := "playing" }
    let next := sendQuestion room
    (next.1, msg :: next.2)

/-- Source `submit_answer` (lines 470-505), room-level, fault-free transport:
status and duplicate-answer guards, recording of the raw answer index,
roster broadcast, and the early-completion path (cancel the timer, reveal). -/
def submitAnswer (room : RealTimeRoom) (player_name : String) (answer : Int) :
    RealTimeRoom × List Msg :=
  if room.status ≠ "playing" then (room, [])
  else
    match findPlayer room.players player_name with
    | none => (room, [])
    | some player =>
      if player.answered then (room, [])
      else
        let room :=
          { room with
            players := updPlayer room.players player_name fun p =>
              { p with answered := true, current_answer := some answer } }
        let m1 := Msg.player_answered player_name (getPlayerList room)
        if room.players.all (fun p => p.answered) then
          let room :=
            { room with
              countdown_task := room.countdown_task.map
                fun _ => TimerTask.cancelled }
          let next := showAnswer room
          (next.1, m1 :: next.2)
        else (room, [m1])

/-- Source `start_game` (lines 346-388), room-level: waiting-status guard, score
reset, countdown and `game_start` broadcasts, transition to `playing` and the
first `send_question`. -/
def startGameRoom (room : RealTimeRoom) : RealTimeRoom × List Msg :=
  if room.status ≠ "waiting" then (room, [])
  else
    let room :=
      { room with
        status := "countdown"
        current_question_index := 0
        players := room.players.map fun (p : Player) =>
          { p with score := 0, correct_count := 0, streak := 0,
                   best_streak := 0 } }
    let msgs := [Msg.countdown 3, Msg.countdown 2, Msg.countdown 1,
                 Msg.game_start room.questions.length]
    let room := { room with status := "playing" }
    let next := sendQuestion room
    (next.1, msgs ++ next.2)

/-- Natural expiry of `_question_timer` (lines 438-468): the countdown loop
exits (so the task can produce no further tick) and `show_answer` runs. -/
def timerFireRoom (room : RealTimeRoom) : RealTimeRoom × List Msg :=
  showAnswer { room with countdown_task := some TimerTask.fired }

/-- Python `str.upper()` on a room code, character by character.  (Stated
over the explicit character list so that concrete instances compute.) -/
def strUpper (s : String) : String := String.mk (s.data.map Char.toUpper)

/-- The `WebSocketManager` registry state (lines 113-116): `rooms` maps room codes
to rooms, `player_rooms` maps player names to the code of their room. -/
structure WSManager where
  rooms : List (String × RealTimeRoom) := []
  player_rooms : List (String × String) := []
  deriving Repr, DecidableEq

/-- Request to the mutually recursive pair `leave_room` / `broadcast_to_room`
(they call each other: a broadcast cleans up faulted connections through
`leave_room`, whose departure notifications broadcast again). -/
inductive Req where
  | leave (player_name : String)
  | broadcast (room_code : String) (message : Msg)
  deriving Repr, DecidableEq

/-- The mutually recursive pair `leave_room` (lines 215-253) and
`broadcast_to_room` (lines 295-319), merged into one function that recurses
structurally on an explicit fuel bound (the real recursion is bounded by the
total participant count, which strictly decreases at every `leave_room` that
does anything).

`Req.leave`, faithful to the source: unknown player is a no-op; otherwise the
Participant and the `player_rooms` entry are deleted; if the room became
empty or the host left, the countdown task is cancelled (lines 239-240) and
the room is deleted from the registry *before* the `room_closed` broadcast is
attempted; otherwise the remaining players get a `player_left` roster update.

`Req.broadcast`: one pass over the (pre-state) player map sending to every
connection and collecting the names whose send faulted, then — only after
the pass — `leave_room` for each collected name, in order. -/
def runF (faulty : Nat → Bool) : Nat → WSManager → Req →
    WSManager × List (String × Msg)
  | 0, mgr, _ => (mgr, [])
  | fuel + 1, mgr, Req.leave player_name =>
    (match alookup mgr.player_rooms player_name with
    | none => (mgr, [])
    | some room_code =>
      match alookup mgr.rooms room_code with
      | none => (mgr, [])
      | some room =>
        if (findPlayer room.players player_name).isSome then
          let room' : RealTimeRoom :=
            { room with players := removePlayer room.players player_name }
          let mgr' : WSManager :=
            { rooms := aset mgr.rooms room_code room'
              player_rooms := aerase mgr.player_rooms player_name }
          if room'.players.isEmpty || player_name = room.host_name then
            let mgr'' : WSManager :=
              { mgr' with rooms := aerase mgr'.rooms room_code }
            runF faulty fuel mgr''
              (Req.broadcast room_code (Msg.room_closed "Host left the game"))
          else
            runF faulty fuel mgr'
              (Req.broadcast room_code
                (Msg.player_left player_name (getPlayerList room')))
        else (mgr, []))
  | fuel + 1, mgr, Req.broadcast room_code message =>
    (match alookup mgr.rooms room_code with
    | none => (mgr, [])
    | some room =>
      let sends := (room.players.filter fun p => !faulty p.websocket).map
        fun p => (p.name, message)
      let disconnected :=
        (room.players.filter fun p => faulty p.websocket).map fun p => p.name
      let cleaned := disconnected.foldl
        (fun acc nm =>
          let r := runF faulty fuel acc.1 (Req.leave nm)
          (r.1, acc.2 ++ r.2))
        (mgr, ([] : List (String × Msg)))
      (cleaned.1, sends ++ cleaned.2))

/-- Entry point for `leave_room`. -/
def leaveRoomF (faulty : Nat → Bool) (fuel : Nat) (mgr : WSManager)
    (player_name : String) : WSManager × List (String × Msg) :=
  runF faulty fuel mgr (Req.leave player_name)

/-- Entry point for `broadcast_to_room`. -/
def broadcastF (faulty : Nat → Bool) (fuel : Nat) (mgr : WSManager)
    (room_code : String) (message : Msg) : WSManager × List (String × Msg) :=
  runF faulty fuel mgr (Req.broadcast room_code message)

/-- The cleanup loop at the end of `broadcast_to_room` (lines 317-319):
`for name in disconnected: await self.leave_room(name)`. -/
def cleanupF (faulty : Nat → Bool) (fuel : Nat) (mgr : WSManager)
    (names : List String) : WSManager × List (String × Msg) :=
  names.foldl
    (fun acc nm =>
      let r := runF faulty fuel acc.1 (Req.leave nm)
      (r.1, acc.2 ++ r.2))
    (mgr, ([] : List (String × Msg)))

/-- Source `send_to_player` (lines 321-344): unicast with the same fault handling —
a faulting send routes the player through `leave_room`. -/
def sendToPlayerF (faulty : Nat → Bool) (fuel : Nat) (mgr : WSManager)
    (room_code player_name : String) (message : Msg) :
    WSManager × List (String × Msg) :=
  match alookup mgr.rooms room_code with
  | none => (mgr, [])
  | some room =>
    match findPlayer room.players player_name with
    | none => (mgr, [])
    | some player =>
      if faulty player.websocket then leaveRoomF faulty fuel mgr player_name
      else (mgr, [(player_name, message)])

/-- Source `join_room` (lines 176-213): uppercased lookup, `waiting`-phase guard,
reconnect (swap the stored websocket) versus fresh `Player` with default
counters, and the `player_rooms` update (note: the source stores the *raw*
`room_code` argument there, not the uppercased key).  Returns the updated
registry and the value returned to the caller. -/
def joinRoom (mgr : WSManager) (room_code player_name : String) (ws : Nat) :
    WSManager × Option RealTimeRoom :=
  match alookup mgr.rooms (strUpper room_code) with
  | none => (mgr, none)
  | some room =>
    if room.status ≠ "waiting" then (mgr, none)
    else
      let room' : RealTimeRoom :=
        if (findPlayer room.players player_name).isSome then
          { room with
            players := updPlayer room.players player_name
              fun p => { p with websocket := ws } }
        else
          { room with
            players := room.players ++ [{ name := player_name, websocket := ws }] }
      ({ rooms := aset mgr.rooms (strUpper room_code) room'
         player_rooms := aset mgr.player_rooms player_name room_code },
       some room')

/-- Source `get_room` (lines 255-265): case-insensitive read-only lookup. -/
def getRoom (mgr : WSManager) (room_code : String) : Option RealTimeRoom :=
  alookup mgr.rooms (strUpper room_code)

/-- Room constructed by `create_room` (lines 136-174): `waiting` status, the
host as sole player, no timer. -/
def initRoom (code host_name : String) (ws : Nat) (questions : List Question)
    (question_ids : List Nat) (categories difficulty : String) : RealTimeRoom :=
  { code := code
    host_name := host_name
    players := [{ name := host_name, websocket := ws }]
    questions := questions
    question_ids := question_ids
    categories := categories
    difficulty := difficulty }

/-- The mutation `join_room` performs on the room it admits into
(lines 203-210): `waiting` guard, reconnect swaps the websocket, otherwise a
fresh default `Player` is appended. -/
def joinUpdate (room : RealTimeRoom) (player_name : String) (ws : Nat) :
    RealTimeRoom :=
  if room.status ≠ "waiting" then room
  else if (findPlayer room.players player_name).isSome then
    { room with
      players := updPlayer room.players player_name
        fun p => { p with websocket := ws } }
  else
    { room with
      players := room.players ++ [{ name := player_name, websocket := ws }] }

/-- One step of a live session's lifecycle (the operations `websocket_manager`
can run against one room).  `leave` is restricted to a departure that keeps
the session alive (a non-host leaving a room that stays non-empty); a host
departure or emptying deletes the room from the registry, ending the
lifecycle, so it has no successor state here. -/
inductive Step : RealTimeRoom → RealTimeRoom → Prop
  | join (r : RealTimeRoom) (nm : String) (ws : Nat) :
      Step r (joinUpdate r nm ws)
  | start (r : RealTimeRoom) :
      Step r (startGameRoom r).1
  | submit (r : RealTimeRoom) (nm : String) (ans : Int) :
      Step r (submitAnswer r nm ans).1
  | timerFire (r : RealTimeRoom) (s : Nat) :
      r.countdown_task = some (TimerTask.pending s) →
      Step r (timerFireRoom r).1
  | leave (r : RealTimeRoom) (nm : String) :
      nm ≠ r.host_name → removePlayer r.players nm ≠ [] →
      Step r { r with players := removePlayer r.players nm }

/-- Reflexive-transitive closure of `Step`. -/
inductive Reachable (r0 : RealTimeRoom) : RealTimeRoom → Prop
  | refl : Reachable r0 r0
  | tail {r r' : RealTimeRoom} : Reachable r0 r → Step r r' → Reachable r0 r'

/-- Inductive invariant of the session lifecycle: the round index never
passes the question count, a `playing` session always has a current question,
and a pending timer only exists while `playing`. -/
def Inv (r : RealTimeRoom) : Prop :=
  r.current_question_index ≤ r.questions.length ∧
  (r.status = "playing" → r.current_question_index < r.questions.length) ∧
  (∀ s, r.countdown_task = some (TimerTask.pending s) → r.status = "playing")

/-- Replace every question's correct-answer index (used to state that the
`question` broadcast is independent of the correct indices). -/
def mapCorrect (c : Int) (room : RealTimeRoom) : RealTimeRoom :=
  { room with
    questions := room.questions.map fun q => { q with correct_answer := c } }

/-!
Race model for claim C3: the interleaving of the pending `_question_timer`
task (lines 438-468, task T) with the `submit_answer` call of the *last*
unanswered participant (lines 470-505, task S), under asyncio's cooperative
scheduling — control changes hands only at `await` points, and a `cancel()`
takes effect when the cancelled task is suspended at an `await`.
`allAnswered` abstracts `all(p.answered for p in room.players.values())`,
which flips to true exactly when S records its answer; `playing` abstracts
`room.status == "playing"`, which turns false the moment either task enters
`show_answer` (line 527).
-/

/-- Program counter of the `_question_timer` task.  `sleeping r` is the
suspension in `await asyncio.sleep(1)` of the loop iteration for `remaining
= r`; `checking r` is the synchronous all-answered check after waking;
`ticking r` is the suspension in the tick broadcast (the `timer` message for
`r - 1` has already gone out); `dead` covers both a finished and a cancelled
task. -/
inductive TimerPc where
  | sleeping (remaining : Nat)
  | checking (remaining : Nat)
  | ticking (remaining : Nat)
  | dead
  deriving Repr, DecidableEq

/-- Program counter of the `submit_answer` task for the last unanswered
participant.  `recording` is the synchronous block from the status guard of
line 484 through setting `answered`/`current_answer`; `broadcasting` is the
suspension in the `player_answered` broadcast; `checkingAll` is the
synchronous tail (all-answered check, `cancel()`, `show_answer` call). -/
inductive SubmitPc where
  | recording
  | broadcasting
  | checkingAll
  | done
  deriving Repr, DecidableEq

/-- Shared state of the race. `ticks` records the `timer` broadcasts, and the
two `Revealed` flags record which task invoked `show_answer`. -/
structure RaceState where
  tpc : TimerPc
  spc : SubmitPc
  allAnswered : Bool
  playing : Bool
  cancelRequested : Bool
  ticks : List Nat
  timerRevealed : Bool
  submitRevealed : Bool
  deriving Repr, DecidableEq

/-- How many times the reveal routine (`show_answer`) has been invoked. -/
def RaceState.revealCount (s : RaceState) : Nat :=
  (if s.timerRevealed then 1 else 0) + (if s.submitRevealed then 1 else 0)

/-- Initial race state: the timer is parked in the sleep of its first
iteration for a `seconds` budget, and the last unanswered participant's
`submit_answer` is about to run. -/
def raceInit (seconds : Nat) : RaceState :=
  { tpc := TimerPc.sleeping seconds
    spc := SubmitPc.recording
    allAnswered := false
    playing := true
    cancelRequested := false
    ticks := []
    timerRevealed := false
    submitRevealed := false }

/-- Interleaving steps.  Each constructor is one maximal synchronous block of
one task (asyncio can only switch tasks at `await` points). -/
inductive RaceStep : RaceState → RaceState → Prop
  /- S: status guard (line 484) passes, `answered := True` and
     `current_answer` are set (lines 491-492), then S suspends in the
     `player_answered` broadcast (line 495). -/
  | sRecord (s : RaceState) : s.spc = SubmitPc.recording → s.playing = true →
      RaceStep s { s with allAnswered := true, spc := SubmitPc.broadcasting }
  /- S: the status guard fails because a reveal already started
     (`room.status` is no longer "playing"): submit returns, recording
     nothing. -/
  | sReject (s : RaceState) : s.spc = SubmitPc.recording → s.playing = false →
      RaceStep s { s with spc := SubmitPc.done }
  /- S: the roster broadcast completes and S resumes. -/
  | sResume (s : RaceState) : s.spc = SubmitPc.broadcasting →
      RaceStep s { s with spc := SubmitPc.checkingAll }
  /- S: re-checks all-answered (line 502, true — S itself recorded), calls
     `countdown_task.cancel()` (line 504) and invokes `show_answer`
     (line 505), which synchronously leaves the "playing" status. -/
  | sReveal (s : RaceState) : s.spc = SubmitPc.checkingAll →
      s.allAnswered = true →
      RaceStep s { s with cancelRequested := true, playing := false,
                          submitRevealed := true, spc := SubmitPc.done }
  /- T: `asyncio.sleep(1)` returns normally (no cancellation pending). -/
  | tWake (s : RaceState) (r : Nat) : s.tpc = TimerPc.sleeping r →
      s.cancelRequested = false →
      RaceStep s { s with tpc := TimerPc.checking r }
  /- T: a cancellation delivered while suspended in the sleep kills the task
     with no further effect. -/
  | tCancelSleep (s : RaceState) (r : Nat) : s.tpc = TimerPc.sleeping r →
      s.cancelRequested = true →
      RaceStep s { s with tpc := TimerPc.dead }
  /- T: the all-answered check (line 458) sees everyone answered: `break`
     out of the loop and invoke `show_answer` (line 468). -/
  | tBreakReveal (s : RaceState) (r : Nat) : s.tpc = TimerPc.checking r →
      s.allAnswered = true →
      RaceStep s { s with tpc := TimerPc.dead, playing := false,
                          timerRevealed := true }
  /- T: not everyone answered: broadcast the tick for `r - 1` (line 462) and
     suspend in that broadcast. -/
  | tTick (s : RaceState) (r : Nat) : s.tpc = TimerPc.checking r →
      s.allAnswered = false →
      RaceStep s { s with tpc := TimerPc.ticking r, ticks := s.ticks ++ [r - 1] }
  /- T: the tick broadcast completes; the loop continues with `r - 1`. -/
  | tLoop (s : RaceState) (r : Nat) : s.tpc = TimerPc.ticking r →
      s.cancelRequested = false → 2 ≤ r →
      RaceStep s { s with tpc := TimerPc.sleeping (r - 1) }
  /- T: the tick broadcast of the last iteration completes; the loop is
     exhausted (natural expiry) and `show_answer` is invoked (line 468). -/
  | tExpire (s : RaceState) : s.tpc = TimerPc.ticking 1 →
      s.cancelRequested = false →
      RaceStep s { s with tpc := TimerPc.dead, playing := false,
                          timerRevealed := true }
  /- T: a cancellation delivered while suspended in the tick broadcast kills
     the task with no further effect. -/
  | tCancelTick (s : RaceState) (r : Nat) : s.tpc = TimerPc.ticking r →
      s.cancelRequested = true →
      RaceStep s { s with tpc := TimerPc.dead }

/-- Reflexive-transitive closure of `RaceStep`. -/
inductive RaceReach (s0 : RaceState) : RaceState → Prop
  | refl : RaceReach s0 s0
  | tail {s s' : RaceState} : RaceReach s0 s → RaceStep s s' → RaceReach s0 s'

/-- Fixture question for concrete witnesses: hard difficulty, correct index 1. -/
def qFix : Question :=
  { question := "Q1", options := ["a", "b", "c", "d"], correct_answer := 1,
    explanation := "E", difficulty := "hard", category := "History" }

/-- Fixture players for concrete witnesses. -/
def pAnn : Player :=
  { name := "Ann", websocket := 1, score := 7, correct_count := 3, streak := 5,
    best_streak := 5, current_answer := some 1, answered := true }

def pBob : Player :=
  { name := "Bob", websocket := 2, score := 4, correct_count := 2, streak := 2,
    best_streak := 4, current_answer := some 9, answered := true }

def pCid : Player := { name := "Cid", websocket := 3 }

def pDee : Player := { name := "Dee", websocket := 4 }

/-- Fixture room mid-round: Ann (host) and Bob answered, Cid and Dee not. -/
def wRoom : RealTimeRoom :=
  { code := "R1", host_name := "Ann", players := [pAnn, pBob, pCid, pDee],
    questions := [qFix], question_ids := [42], status := "playing",
    countdown_task := some (TimerTask.pending 15) }

/-- Fixture room still in the lobby. -/
def wRoomWait : RealTimeRoom :=
  { wRoom with status := "waiting", countdown_task := none }

/-- Fixture room that has played past its final question. -/
def wRoomEnd : RealTimeRoom :=
  { wRoom with current_question_index := 1 }

/-- Fixture registry holding the lobby room under code "R1". -/
def wMgr : WSManager :=
  { rooms := [("R1", wRoomWait)]
    player_rooms := [("Ann", "R1"), ("Bob", "R1"), ("Cid", "R1"), ("Dee", "R1")] }

/-- Fixture registry holding the mid-round (playing) room under code "R1". -/
def wMgrLive : WSManager :=
  { rooms := [("R1", wRoom)]
    player_rooms := [("Ann", "R1"), ("Bob", "R1"), ("Cid", "R1"), ("Dee", "R1")] }

theorem updPlayer_get?_of_ne (nm : String) (f : Player → Player) :
    ∀ (players : List Player) (j : Nat) (p2 : Player),
      players.get? j = some p2 → p2.name ≠ nm →
      (updPlayer players nm f).get? j = some p2 := by
  intro players
  induction players with
  | nil => intro j p2 h; simp [List.get?] at h
  | cons p rest ih =>
    intro j p2 h hne
    cases j with
    | zero =>
      simp only [List.get?] at h
      cases h
      simp [updPlayer, hne]
    | succ j =>
      simp only [List.get?] at h
      unfold updPlayer
      by_cases hp : p.name = nm
      · rw [if_pos hp]
        simp only [List.get?]
        exact h
      · rw [if_neg hp]
        simp only [List.get?]
        exact ih j p2 h hne

theorem findPlayer_mem_name :
    ∀ (players : List Player) (nm : String) (p : Player),
      findPlayer players nm = some p → p.name = nm := by
  intro players nm p h
  have := List.find?_some h
  simpa using this

theorem findPlayer_updPlayer_self (nm : String) (f : Player → Player) :
    ∀ (players : List Player) (p : Player),
      findPlayer players nm = some p →
      (∀ q, (f q).name = q.name) →
      findPlayer (updPlayer players nm f) nm = some (f p) := by
  intro players
  induction players with
  | nil => intro p h _; simp [findPlayer] at h
  | cons a rest ih =>
    intro p h hf
    simp only [findPlayer] at h ⊢
    by_cases ha : a.name = nm
    · rw [List.find?_cons_of_pos _ (by simpa using ha)] at h
      cases h
      unfold updPlayer
      rw [if_pos ha]
      rw [List.find?_cons_of_pos _ (by simp [hf, ha])]
    · rw [List.find?_cons_of_neg _ (by simpa using ha)] at h
      unfold updPlayer
      rw [if_neg ha]
      rw [List.find?_cons_of_neg _ (by simpa using ha)]
      exact ih p h hf

/-- Lemma: `send_question` never touches scores, streaks, best streaks or correct
counts: the player stored at any index keeps those four fields. -/
theorem sendQuestion_players_get (room : RealTimeRoom) (i : Nat) (p : Player)
    (hp : room.players.get? i = some p) :
    ∃ p', (sendQuestion room).1.players.get? i = some p' ∧
      p'.score = p.score ∧ p'.streak = p.streak ∧
      p'.best_streak = p.best_streak ∧ p'.correct_count = p.correct_count := by
  unfold sendQuestion endGame
  split
  · exact ⟨p, hp, rfl, rfl, rfl, rfl⟩
  · split
    · exact ⟨p, hp, rfl, rfl, rfl, rfl⟩
    · split
      · exact ⟨p, hp, rfl, rfl, rfl, rfl⟩
      · refine ⟨{ p with answered := false, current_answer := none }, ?_, rfl, rfl, rfl, rfl⟩
        rw [List.get?_map, hp]
        rfl

/-- The state `show_answer` leaves behind scores the player at index `i`
exactly by `scoreOne` (the loop body of lines 537-560); the subsequent
`send_question` only resets answer flags. -/
theorem showAnswer_players_get (room : RealTimeRoom) (q : Question) (i : Nat)
    (p : Player)
    (hq : room.questions.get? room.current_question_index = some q)
    (hp : room.players.get? i = some p) :
    ∃ p', (showAnswer room).1.players.get? i = some p' ∧
      p'.score = ((scoreOne q.correct_answer (basePoints q.difficulty) p).1).score ∧
      p'.streak = ((scoreOne q.correct_answer (basePoints q.difficulty) p).1).streak ∧
      p'.best_streak = ((scoreOne q.correct_answer (basePoints q.difficulty) p).1).best_streak ∧
      p'.correct_count = ((scoreOne q.correct_answer (basePoints q.difficulty) p).1).correct_count := by
  unfold showAnswer
  simp only [hq]
  have hp' : ((room.players.map (scoreOne q.correct_answer (basePoints q.difficulty))).map
      Prod.fst).get? i = some ((scoreOne q.correct_answer (basePoints q.difficulty) p).1) := by
    rw [List.get?_map, List.get?_map, hp]
    rfl
  exact sendQuestion_players_get _ i _ hp'

theorem scoreOne_best_mono (c : Int) (b : Nat) (p : Player) :
    p.best_streak ≤ ((scoreOne c b p).1).best_streak := by
  by_cases h : p.current_answer = some c
  · simp only [scoreOne, if_pos h]
    split <;> omega
  · simp [scoreOne, h]

/-- C2: at reveal, every participant whose `current_answer` equals the
round's correct index earns `base(difficulty) + min(new_streak − 1, 5) × 2`
points, where base is 10 for easy, 20 for medium, 30 for hard and 10 for any
other difficulty string, and `new_streak` is the streak after incrementing
for this correct answer; the points are added to the participant's score. -/
theorem C2_streak_scoring (room : RealTimeRoom) (q : Question) (i : Nat)
    (p : Player)
    (hq : room.questions.get? room.current_question_index = some q)
    (hp : room.players.get? i = some p)
    (hc : p.current_answer = some q.correct_answer) :
    (basePoints "easy" = 10 ∧ basePoints "medium" = 20 ∧
      basePoints "hard" = 30 ∧
      ∀ d, d ≠ "easy" → d ≠ "medium" → d ≠ "hard" → basePoints d = 10) ∧
    ∃ p', (showAnswer room).1.players.get? i = some p' ∧
      p'.streak = p.streak + 1 ∧
      p'.score = p.score + (basePoints q.difficulty + min (p.streak + 1 - 1) 5 * 2) := by
  refine ⟨⟨rfl, rfl, rfl, ?_⟩, ?_⟩
  · intro d h1 h2 h3
    simp [basePoints, h1, h2, h3]
  · obtain ⟨p', hget, hscore, hstreak, _, _⟩ :=
      showAnswer_players_get room q i p hq hp
    refine ⟨p', hget, ?_, ?_⟩
    · rw [hstreak]
      simp [scoreOne, hc]
    · rw [hscore]
      simp [scoreOne, hc]

/-- C2 witness: Ann (hard question, streak 5 before the answer, correct)
moves to streak 6 and earns 30 + min(5,5)·2 = 40 points. -/
theorem C2_streak_scoring_witness :
    (wRoom.questions.get? wRoom.current_question_index = some qFix) ∧
    (wRoom.players.get? 0 = some pAnn) ∧
    (pAnn.current_answer = some qFix.correct_answer) ∧
    ∃ p', (showAnswer wRoom).1.players.get? 0 = some p' ∧
      p'.streak = pAnn.streak + 1 ∧
      p'.score = pAnn.score + (basePoints qFix.difficulty + min (pAnn.streak + 1 - 1) 5 * 2) :=
  ⟨rfl, rfl, rfl, (C2_streak_scoring wRoom qFix 0 pAnn rfl rfl rfl).2⟩

/-- C4: at reveal, a wrong (or missing) answer earns 0 points (the score is
unchanged) and resets the participant's streak to 0 while leaving
`best_streak` untouched; and no reveal ever decreases `best_streak`. -/
theorem C4_wrong_answer_zero (room : RealTimeRoom) (q : Question) (i : Nat)
    (p : Player)
    (hq : room.questions.get? room.current_question_index = some q)
    (hp : room.players.get? i = some p) :
    (p.current_answer ≠ some q.correct_answer →
      ∃ p', (showAnswer room).1.players.get? i = some p' ∧
        p'.score = p.score ∧ p'.streak = 0 ∧ p'.best_streak = p.best_streak) ∧
    ∃ p', (showAnswer room).1.players.get? i = some p' ∧
      p.best_streak ≤ p'.best_streak := by
  obtain ⟨p', hget, hscore, hstreak, hbest, _⟩ :=
    showAnswer_players_get room q i p hq hp
  constructor
  · intro hne
    refine ⟨p', hget, ?_, ?_, ?_⟩
    · rw [hscore]; simp [scoreOne, hne]
    · rw [hstreak]; simp [scoreOne, hne]
    · rw [hbest]; simp [scoreOne, hne]
  · refine ⟨p', hget, ?_⟩
    rw [hbest]
    exact scoreOne_best_mono q.correct_answer (basePoints q.difficulty) p

/-- C4 witness: Bob answered 9 against correct index 1: 0 points, streak
drops from 2 to 0, best streak stays 4 and does not decrease. -/
theorem C4_wrong_answer_zero_witness :
    (wRoom.questions.get? wRoom.current_question_index = some qFix) ∧
    (wRoom.players.get? 1 = some pBob) ∧
    (pBob.current_answer ≠ some qFix.correct_answer) ∧
    (∃ p', (showAnswer wRoom).1.players.get? 1 = some p' ∧
      p'.score = pBob.score ∧ p'.streak = 0 ∧ p'.best_streak = pBob.best_streak) ∧
    ∃ p', (showAnswer wRoom).1.players.get? 1 = some p' ∧
      pBob.best_streak ≤ p'.best_streak :=
  ⟨rfl, rfl, by decide,
    (C4_wrong_answer_zero wRoom qFix 1 pBob rfl rfl).1 (by decide),
    (C4_wrong_answer_zero wRoom qFix 1 pBob rfl rfl).2⟩

/-- C6: `submit_answer` outside the `playing` phase is a complete no-op, and
a second submission by a participant whose `answered` flag is already set is
likewise a complete no-op — the first answer wins and no session state (nor
any broadcast) is produced. -/
theorem C6_first_answer_wins (room : RealTimeRoom) (nm : String) (ans : Int) :
    (room.status ≠ "playing" → submitAnswer room nm ans = (room, [])) ∧
    (∀ p, findPlayer room.players nm = some p → p.answered = true →
      submitAnswer room nm ans = (room, [])) := by
  constructor
  · intro h
    unfold submitAnswer
    rw [if_pos h]
  · intro p hp ha
    unfold submitAnswer
    by_cases hst : room.status ≠ "playing"
    · rw [if_pos hst]
    · rw [if_neg hst]
      simp only [hp, ha]
      simp

/-- C6 witness: submitting into a waiting room is a no-op, and Bob (already
answered) submitting again into the live room is a no-op. -/
theorem C6_first_answer_wins_witness :
    (wRoomWait.status ≠ "playing") ∧
    submitAnswer wRoomWait "Bob" 2 = (wRoomWait, []) ∧
    (findPlayer wRoom.players "Bob" = some pBob) ∧ (pBob.answered = true) ∧
    submitAnswer wRoom "Bob" 2 = (wRoom, []) :=
  ⟨by decide, (C6_first_answer_wins wRoomWait "Bob" 2).1 (by decide),
    rfl, rfl, (C6_first_answer_wins wRoom "Bob" 2).2 pBob rfl rfl⟩

/-- C10: `submit_answer` records any integer answer index verbatim — no range
validation — and at reveal an out-of-range index (negative or ≥ 4) compares
unequal to the correct index (which lies in [0,3]) and is scored as
incorrect: 0 points and streak reset to 0.  (No operation indexes the
options list by the submitted value: in the embedding, as in the source, the
submitted answer is only ever compared for equality.) -/
theorem C10_out_of_range_harmless (room : RealTimeRoom) (nm : String)
    (answer : Int) (q : Question) (p : Player)
    (hrange : answer < 0 ∨ 4 ≤ answer)
    (hq : room.questions.get? room.current_question_index = some q)
    (hc : 0 ≤ q.correct_answer ∧ q.correct_answer ≤ 3) :
    (room.status = "playing" → findPlayer room.players nm = some p →
      p.answered = false →
      (∃ j p2, room.players.get? j = some p2 ∧ p2.name ≠ nm ∧ p2.answered = false) →
      findPlayer (submitAnswer room nm answer).1.players nm =
        some { p with answered := true, current_answer := some answer }) ∧
    answer ≠ q.correct_answer ∧
    (∀ i pp, room.players.get? i = some pp → pp.current_answer = some answer →
      ∃ p', (showAnswer room).1.players.get? i = some p' ∧
        p'.score = pp.score ∧ p'.streak = 0) := by
  have hne : answer ≠ q.correct_answer := by omega
  refine ⟨?_, hne, ?_⟩
  · intro hst hp ha ⟨j, p2, hj, hjne, hjunanswered⟩
    unfold submitAnswer
    rw [if_neg (by simp [hst])]
    simp only [hp]
    rw [if_neg (by simp [ha])]
    have hupd := updPlayer_get?_of_ne nm
      (fun p => { p with answered := true, current_answer := some answer })
      room.players j p2 hj hjne
    have hall : (updPlayer room.players nm
        (fun p => { p with answered := true, current_answer := some answer })).all
        (fun p => p.answered) = false := by
      by_contra hcon
      have htrue : (updPlayer room.players nm
          (fun p => { p with answered := true, current_answer := some answer })).all
          (fun p => p.answered) = true := by
        revert hcon
        cases (updPlayer room.players nm
          (fun p => { p with answered := true, current_answer := some answer })).all
          (fun p => p.answered) <;> simp
      rw [List.all_eq_true] at htrue
      have := htrue p2 (List.get?_mem hupd)
      rw [hjunanswered] at this
      exact Bool.false_ne_true this
    rw [if_neg (by simp [hall])]
    exact findPlayer_updPlayer_self nm _ room.players p hp (fun q => rfl)
  · intro i pp hi hansw
    have hppne : pp.current_answer ≠ some q.correct_answer := by
      rw [hansw]
      intro hcontra
      exact hne (by injection hcontra)
    obtain ⟨p', hget, hscore, hstreak, _, _⟩ :=
      showAnswer_players_get room q i pp hq hi
    refine ⟨p', hget, ?_, ?_⟩
    · rw [hscore]; simp [scoreOne, hppne]
    · rw [hstreak]; simp [scoreOne, hppne]

/-- C10 witness: Cid submits 9 (≥ 4, out of range) into the live room and it
is recorded verbatim; Bob holds answer 9 at reveal and gets 0 points and a
streak reset. -/
theorem C10_out_of_range_harmless_witness :
    ((9:Int) < 0 ∨ 4 ≤ (9:Int)) ∧
    (wRoom.questions.get? wRoom.current_question_index = some qFix) ∧
    (0 ≤ qFix.correct_answer ∧ qFix.correct_answer ≤ 3) ∧
    (wRoom.status = "playing") ∧ (findPlayer wRoom.players "Cid" = some pCid) ∧
    (pCid.answered = false) ∧
    (wRoom.players.get? 3 = some pDee ∧ pDee.name ≠ "Cid" ∧ pDee.answered = false) ∧
    (findPlayer (submitAnswer wRoom "Cid" 9).1.players "Cid" =
      some { pCid with answered := true, current_answer := some 9 }) ∧
    ((9:Int) ≠ qFix.correct_answer) ∧
    (wRoom.players.get? 1 = some pBob) ∧ (pBob.current_answer = some 9) ∧
    ∃ p', (showAnswer wRoom).1.players.get? 1 = some p' ∧
      p'.score = pBob.score ∧ p'.streak = 0 := by
  have h := C10_out_of_range_harmless wRoom "Cid" 9 qFix pCid
    (Or.inr (by norm_num)) rfl ⟨by decide, by decide⟩
  refine ⟨Or.inr (by norm_num), rfl, ⟨by decide, by decide⟩, rfl, rfl, rfl,
    ⟨rfl, by decide, rfl⟩, ?_, h.2.1, rfl, rfl, h.2.2 1 pBob rfl rfl⟩
  exact h.1 rfl rfl rfl ⟨3, pDee, rfl, by decide, rfl⟩

theorem updPlayer_map_name (nm : String) (f : Player → Player)
    (hf : ∀ q, (f q).name = q.name) :
    ∀ players : List Player,
      (updPlayer players nm f).map Player.name = players.map Player.name := by
  intro players
  induction players with
  | nil => rfl
  | cons a rest ih =>
    unfold updPlayer
    by_cases ha : a.name = nm
    · rw [if_pos ha]
      simp [hf]
    · rw [if_neg ha]
      simp [ih]

/-- C5: `join_room` looks the code up after uppercasing it (so lookup is
case-insensitive over the uppercase codes the generator produces); it
returns `none`, leaving the registry untouched, when no live session matches
or when the session's phase is not `waiting`; an admitted identity that
already exists is a reconnect — the stored websocket handle is swapped, the
roster names and the participant count are unchanged; an admitted fresh
identity appends a new `Player` with all-default (zero) counters. -/
theorem C5_join_semantics (mgr : WSManager) (code nm : String) (ws : Nat) :
    (∀ code2, strUpper code = strUpper code2 →
      (joinRoom mgr code nm ws).2 = (joinRoom mgr code2 nm ws).2 ∧
      (joinRoom mgr code nm ws).1.rooms = (joinRoom mgr code2 nm ws).1.rooms) ∧
    (alookup mgr.rooms (strUpper code) = none → joinRoom mgr code nm ws = (mgr, none)) ∧
    (∀ room, alookup mgr.rooms (strUpper code) = some room →
      room.status ≠ "waiting" → joinRoom mgr code nm ws = (mgr, none)) ∧
    (∀ room p, alookup mgr.rooms (strUpper code) = some room →
      room.status = "waiting" → findPlayer room.players nm = some p →
      ∃ room', (joinRoom mgr code nm ws).2 = some room' ∧
        room'.players.map Player.name = room.players.map Player.name ∧
        room'.players.length = room.players.length ∧
        findPlayer room'.players nm = some { p with websocket := ws }) ∧
    (∀ room, alookup mgr.rooms (strUpper code) = some room →
      room.status = "waiting" → findPlayer room.players nm = none →
      ∃ room', (joinRoom mgr code nm ws).2 = some room' ∧
        room'.players = room.players ++
          [{ name := nm, websocket := ws, score := 0, correct_count := 0,
             streak := 0, best_streak := 0, current_answer := none,
             answered := false }]) := by
  refine ⟨?_, ?_, ?_, ?_, ?_⟩
  · intro code2 h
    unfold joinRoom
    rw [h]
    cases halook : alookup mgr.rooms (strUpper code2) with
    | none => exact ⟨rfl, rfl⟩
    | some room =>
      refine ⟨?_, ?_⟩ <;> (split <;> (try split) <;> rfl)
  · intro h
    unfold joinRoom
    rw [h]
  · intro room h hst
    unfold joinRoom
    rw [h]
    simp only [if_pos hst]
  · intro room p h hst hp
    unfold joinRoom
    rw [h]
    dsimp only
    rw [if_neg (by simp [hst]), hp]
    simp only [Option.isSome_some, if_true]
    refine ⟨_, rfl, ?_, ?_, ?_⟩
    · exact updPlayer_map_name nm (fun p => { p with websocket := ws })
        (fun q => rfl) room.players
    · have := congrArg List.length (updPlayer_map_name nm
        (fun p => { p with websocket := ws }) (fun q => rfl) room.players)
      simpa using this
    · exact findPlayer_updPlayer_self nm (fun p => { p with websocket := ws })
        room.players p hp (fun q => rfl)
  · intro room h hst hp
    unfold joinRoom
    rw [h]
    dsimp only
    rw [if_neg (by simp [hst]), hp]
    simp only [Option.isSome_none, if_false]
    exact ⟨_, rfl, rfl⟩

/-- C5 witness: lowercase "r1" joins the lobby room exactly like "R1"; Bob
rejoining swaps his websocket without duplicating him; Eve joining appends a
default participant; Eve cannot join the live (playing) room. -/
theorem C5_join_semantics_witness :
    (strUpper "r1" = strUpper "R1") ∧
    ((joinRoom wMgr "r1" "Bob" 9).2 = (joinRoom wMgr "R1" "Bob" 9).2) ∧
    (alookup wMgr.rooms (strUpper "r1") = some wRoomWait) ∧
    (wRoomWait.status = "waiting") ∧
    (findPlayer wRoomWait.players "Bob" = some pBob) ∧
    (∃ room', (joinRoom wMgr "r1" "Bob" 9).2 = some room' ∧
      room'.players.map Player.name = wRoomWait.players.map Player.name ∧
      room'.players.length = wRoomWait.players.length ∧
      findPlayer room'.players "Bob" = some { pBob with websocket := 9 }) ∧
    (findPlayer wRoomWait.players "Eve" = none) ∧
    (∃ room', (joinRoom wMgr "r1" "Eve" 9).2 = some room' ∧
      room'.players = wRoomWait.players ++
        [{ name := "Eve", websocket := 9, score := 0, correct_count := 0,
           streak := 0, best_streak := 0, current_answer := none,
           answered := false }]) ∧
    (alookup wMgrLive.rooms (strUpper "R1") = some wRoom) ∧
    (wRoom.status ≠ "waiting") ∧
    joinRoom wMgrLive "R1" "Eve" 9 = (wMgrLive, none) := by
  refine ⟨by decide, ?_, by decide, rfl, rfl, ?_, by decide, ?_, by decide,
    by decide, ?_⟩
  · exact ((C5_join_semantics wMgr "r1" "Bob" 9).1 "R1" (by decide)).1
  · exact (C5_join_semantics wMgr "r1" "Bob" 9).2.2.2.1 wRoomWait pBob
      (by decide) rfl rfl
  · exact (C5_join_semantics wMgr "r1" "Eve" 9).2.2.2.2 wRoomWait
      (by decide) rfl (by decide)
  · exact (C5_join_semantics wMgrLive "R1" "Eve" 9).2.2.1 wRoom
      (by decide) (by decide)

/-- C9: a broadcast walks the pre-state participant map once, so every
participant whose connection does not fault receives the message; the faulting
names are handed to the `leave_room` path only after that pass completes (the
participant map is never mutated while being iterated — the sends and the
fault list are both computed from the pre-state map); and a faulting unicast
in `send_to_player` routes through exactly the same `leave_room` path. -/
theorem C9_broadcast_fault_isolation (faulty : Nat → Bool) (fuel : Nat)
    (mgr : WSManager) (room_code : String) (message : Msg)
    (room : RealTimeRoom)
    (hroom : alookup mgr.rooms room_code = some room) :
    (∀ p ∈ room.players, faulty p.websocket = false →
      (p.name, message) ∈ (broadcastF faulty (fuel + 1) mgr room_code message).2) ∧
    (∃ rest, (broadcastF faulty (fuel + 1) mgr room_code message).2 =
      ((room.players.filter fun p => !faulty p.websocket).map
        fun p => (p.name, message)) ++ rest) ∧
    ((broadcastF faulty (fuel + 1) mgr room_code message).1 =
      (cleanupF faulty fuel mgr
        ((room.players.filter fun p => faulty p.websocket).map
          fun p => p.name)).1) ∧
    (∀ nm p, findPlayer room.players nm = some p → faulty p.websocket = true →
      sendToPlayerF faulty fuel mgr room_code nm message =
        leaveRoomF faulty fuel mgr nm) := by
  refine ⟨?_, ?_, ?_, ?_⟩
  · intro p hp hfault
    simp only [broadcastF, runF]
    rw [hroom]
    dsimp only
    apply List.mem_append_left
    apply List.mem_map_of_mem
    rw [List.mem_filter]
    exact ⟨hp, by simp [hfault]⟩
  · refine ⟨(cleanupF faulty fuel mgr
      ((room.players.filter fun p => faulty p.websocket).map fun p => p.name)).2, ?_⟩
    simp only [broadcastF, runF, cleanupF]
    rw [hroom]
  · simp only [broadcastF, runF, cleanupF]
    rw [hroom]
  · intro nm p hp hfault
    unfold sendToPlayerF
    simp [hroom, hp, hfault, leaveRoomF]

/-- C9 witness: broadcasting into the live room where Bob's connection (id 2)
faults — Ann, Cid and Dee still receive the message, the manager is the one
the `leave_room` cleanup pass produces, and a faulting unicast to Bob equals
`leave_room` of Bob. -/
theorem C9_broadcast_fault_isolation_witness :
    (alookup wMgrLive.rooms "R1" = some wRoom) ∧
    (pAnn ∈ wRoom.players ∧ (fun ws => ws == 2) pAnn.websocket = false) ∧
    (("Ann", Msg.timer 7) ∈
      (broadcastF (fun ws => ws == 2) 6 wMgrLive "R1" (Msg.timer 7)).2) ∧
    (findPlayer wRoom.players "Bob" = some pBob ∧
      (fun ws => ws == 2) pBob.websocket = true) ∧
    (sendToPlayerF (fun ws => ws == 2) 5 wMgrLive "R1" "Bob" (Msg.timer 7) =
      leaveRoomF (fun ws => ws == 2) 5 wMgrLive "Bob") := by
  have h := C9_broadcast_fault_isolation (fun ws => ws == 2) 5 wMgrLive "R1"
    (Msg.timer 7) wRoom (by decide)
  refine ⟨by decide, ⟨by decide, by decide⟩, ?_, ⟨rfl, by decide⟩, ?_⟩
  · exact h.1 pAnn (by decide) (by decide)
  · exact h.2.2.2 "Bob" pBob rfl (by decide)

/-- Fixture for C1: a three-participant room under code "ROOM1" whose host is
Ann, with a pending round timer, registered together with all three
identity-to-code entries. -/
def c1Mgr : WSManager :=
  { rooms := [("ROOM1",
      { code := "ROOM1", host_name := "Ann",
        players := [{ name := "Ann", websocket := 1 },
                    { name := "Bob", websocket := 2 },
                    { name := "Cid", websocket := 3 }],
        status := "playing", countdown_task := some (TimerTask.pending 15) })]
    player_rooms := [("Ann", "ROOM1"), ("Bob", "ROOM1"), ("Cid", "ROOM1")] }

/-- C1: when the owner Ann leaves her room with two remaining participants,
the session is deleted from the registry — but the `room_closed` broadcast
that follows the deletion (lines 241-246) looks the already-deleted room code
up, finds nothing and returns, so the two remaining participants receive NO
message at all (the claim and the source comment "Notify remaining players"
expect each of them to receive a `room_closed` message). -/
theorem C1_room_closed_never_delivered :
    leaveRoomF (fun _ => false) 10 c1Mgr "Ann" =
      ({ rooms := [], player_rooms := [("Bob", "ROOM1"), ("Cid", "ROOM1")] },
       []) := by
  decide

/-- C7: advancing to the next question while `playing` transitions to
`finished` when the round index has reached the question count, broadcasting
final standings (name, score, correct count, best streak) sorted by
descending score together with the total question count; otherwise it resets
every participant's `answered`/`current_answer`, broadcasts the question at
the round index with the fixed 15-second budget (the broadcast carries no
correct-answer field: it is invariant under rewriting every question's
correct index), and stores a pending 15-second round timer. -/
theorem C7_advance_or_finish (room : RealTimeRoom) :
    (room.status = "playing" →
      room.questions.length ≤ room.current_question_index →
      (sendQuestion room).1.status = "finished" ∧
      ∃ st, (sendQuestion room).2 = [Msg.game_over st room.questions.length] ∧
        st.Pairwise (fun a b => b.score ≤ a.score) ∧
        st.Perm (room.players.map fun p =>
          ({ name := p.name, score := p.score, correct_count := p.correct_count,
             best_streak := p.best_streak } : Standing))) ∧
    (∀ q, room.status = "playing" →
      room.questions.get? room.current_question_index = some q →
      (sendQuestion room).1.countdown_task = some (TimerTask.pending 15) ∧
      (sendQuestion room).1.status = "playing" ∧
      (sendQuestion room).2 = [Msg.question (room.current_question_index + 1)
        room.questions.length
        (room.question_ids.getD room.current_question_index 0)
        q.question q.options q.category q.difficulty 15] ∧
      ∀ i p, room.players.get? i = some p →
        (sendQuestion room).1.players.get? i =
          some { p with answered := false, current_answer := none }) ∧
    (∀ c, (sendQuestion (mapCorrect c room)).2 = (sendQuestion room).2) := by
  refine ⟨?_, ?_, ?_⟩
  · intro hst hlen
    unfold sendQuestion endGame
    rw [if_neg (by simp [hst]), if_pos hlen]
    refine ⟨rfl, _, rfl, ?_, ?_⟩
    · unfold sortByDesc
      haveI : IsTotal Standing (fun a b => b.score ≤ a.score) :=
        ⟨fun a b => le_total b.score a.score⟩
      haveI : IsTrans Standing (fun a b => b.score ≤ a.score) :=
        ⟨fun _ _ _ hab hbc => le_trans hbc hab⟩
      exact List.sorted_insertionSort _ _
    · unfold sortByDesc
      exact List.perm_insertionSort _ _
  · intro q hst hq
    obtain ⟨hlt, -⟩ := List.get?_eq_some.mp hq
    unfold sendQuestion
    rw [if_neg (by simp [hst]), if_neg (by omega)]
    split
    · rename_i heq
      rw [hq] at heq
      cases heq
    · rename_i q' heq
      rw [hq] at heq
      injection heq with h
      subst h
      refine ⟨rfl, hst, rfl, ?_⟩
      intro i p hp
      rw [List.get?_map, hp]
      rfl
  · intro c
    unfold sendQuestion endGame mapCorrect
    dsimp only
    by_cases hst : room.status ≠ "playing"
    · rw [if_pos hst, if_pos hst]
    · rw [if_neg hst, if_neg hst]
      rw [List.length_map]
      by_cases hlen : room.questions.length ≤ room.current_question_index
      · rw [if_pos hlen, if_pos hlen]
      · rw [if_neg hlen, if_neg hlen]
        rw [List.get?_map]
        cases hq : room.questions.get? room.current_question_index with
        | none => rfl
        | some q => rfl

/-- C7 witness: the played-out fixture room finishes with sorted standings;
the live fixture room broadcasts question 1 of 1 with a 15-second budget and
a pending timer and resets Ann's flags; the broadcast is independent of the
correct index. -/
theorem C7_advance_or_finish_witness :
    (wRoomEnd.status = "playing") ∧
    (wRoomEnd.questions.length ≤ wRoomEnd.current_question_index) ∧
    ((sendQuestion wRoomEnd).1.status = "finished" ∧
      ∃ st, (sendQuestion wRoomEnd).2 = [Msg.game_over st wRoomEnd.questions.length] ∧
        st.Pairwise (fun a b => b.score ≤ a.score) ∧
        st.Perm (wRoomEnd.players.map fun p =>
          ({ name := p.name, score := p.score, correct_count := p.correct_count,
             best_streak := p.best_streak } : Standing))) ∧
    (wRoom.status = "playing") ∧
    (wRoom.questions.get? wRoom.current_question_index = some qFix) ∧
    ((sendQuestion wRoom).1.countdown_task = some (TimerTask.pending 15)) ∧
    ((sendQuestion wRoom).2 = [Msg.question 1 1 42 qFix.question qFix.options
      qFix.category qFix.difficulty 15]) ∧
    ((sendQuestion wRoom).1.players.get? 0 =
      some { pAnn with answered := false, current_answer := none }) ∧
    ((sendQuestion (mapCorrect 3 wRoom)).2 = (sendQuestion wRoom).2) := by
  have hEnd := (C7_advance_or_finish wRoomEnd).1 rfl (by decide)
  have hQ := (C7_advance_or_finish wRoom).2.1 qFix rfl rfl
  refine ⟨rfl, by decide, hEnd, rfl, rfl, hQ.1, ?_, hQ.2.2.2 0 pAnn rfl,
    (C7_advance_or_finish wRoom).2.2 3⟩
  exact hQ.2.2.1

theorem inv_sendQuestion (r : RealTimeRoom) (hst : r.status = "playing")
    (hidx : r.current_question_index ≤ r.questions.length)
    (htask : ∀ s, r.countdown_task ≠ some (TimerTask.pending s)) :
    Inv (sendQuestion r).1 := by
  unfold sendQuestion endGame Inv
  rw [if_neg (by simp [hst])]
  by_cases hlen : r.questions.length ≤ r.current_question_index
  · rw [if_pos hlen]
    refine ⟨hidx, ?_, ?_⟩
    · intro h
      exact absurd (show ("finished" : String) = "playing" from h) (by decide)
    · intro s hs
      exact absurd hs (htask s)
  · rw [if_neg hlen]
    split
    · exact ⟨hidx,
        fun _ => show r.current_question_index < r.questions.length by omega,
        fun s _ => hst⟩
    · exact ⟨hidx,
        fun _ => show r.current_question_index < r.questions.length by omega,
        fun s _ => hst⟩

theorem inv_showAnswer (r : RealTimeRoom)
    (hidx : r.current_question_index < r.questions.length)
    (htask : ∀ s, r.countdown_task ≠ some (TimerTask.pending s)) :
    Inv (showAnswer r).1 := by
  obtain ⟨q, hq⟩ : ∃ q, r.questions.get? r.current_question_index = some q := by
    cases hg : r.questions.get? r.current_question_index with
    | none => exact absurd (List.get?_eq_none.mp hg) (by omega)
    | some q => exact ⟨q, rfl⟩
  unfold showAnswer
  simp only [hq]
  apply inv_sendQuestion
  · rfl
  · show r.current_question_index + 1 ≤ r.questions.length
    omega
  · intro s hs
    exact htask s hs

theorem inv_submitAnswer (r : RealTimeRoom) (nm : String) (ans : Int)
    (hInv : Inv r) : Inv (submitAnswer r nm ans).1 := by
  unfold submitAnswer
  by_cases hst : r.status ≠ "playing"
  · rw [if_pos hst]
    exact hInv
  · rw [if_neg hst]
    have hp : r.status = "playing" := not_not.mp hst
    split
    · exact hInv
    · rename_i player hplayer
      by_cases ha : player.answered = true
      · rw [if_pos ha]
        exact hInv
      · rw [if_neg ha]
        dsimp only
        split
        · apply inv_showAnswer
          · exact hInv.2.1 hp
          · intro s hs
            cases hc : r.countdown_task <;> simp [hc] at hs
        · exact ⟨hInv.1, fun _ => hInv.2.1 hp, fun s _ => hp⟩

theorem inv_startGame (r : RealTimeRoom) (hInv : Inv r) :
    Inv (startGameRoom r).1 := by
  unfold startGameRoom
  by_cases hst : r.status ≠ "waiting"
  · rw [if_pos hst]
    exact hInv
  · rw [if_neg hst]
    have hw : r.status = "waiting" := not_not.mp hst
    apply inv_sendQuestion
    · rfl
    · exact Nat.zero_le _
    · intro s hs
      have := hInv.2.2 s hs
      rw [hw] at this
      exact absurd this (by decide)

theorem inv_timerFire (r : RealTimeRoom) (s : Nat)
    (hpend : r.countdown_task = some (TimerTask.pending s)) (hInv : Inv r) :
    Inv (timerFireRoom r).1 := by
  unfold timerFireRoom
  have hp := hInv.2.2 s hpend
  apply inv_showAnswer
  · exact hInv.2.1 hp
  · intro s' hs'
    simp at hs'

theorem inv_joinUpdate (r : RealTimeRoom) (nm : String) (ws : Nat)
    (hInv : Inv r) : Inv (joinUpdate r nm ws) := by
  unfold joinUpdate
  split
  · exact hInv
  · split
    · exact hInv
    · exact hInv

theorem inv_step {r r' : RealTimeRoom} (hInv : Inv r) (h : Step r r') :
    Inv r' := by
  cases h with
  | join nm ws => exact inv_joinUpdate r nm ws hInv
  | start => exact inv_startGame r hInv
  | submit nm ans => exact inv_submitAnswer r nm ans hInv
  | timerFire s hp => exact inv_timerFire r s hp hInv
  | leave nm h1 h2 => exact hInv

theorem inv_initRoom (code host_name : String) (ws : Nat)
    (questions : List Question) (question_ids : List Nat)
    (categories difficulty : String) :
    Inv (initRoom code host_name ws questions question_ids categories difficulty) :=
  ⟨Nat.zero_le _,
    fun h => absurd (show ("waiting" : String) = "playing" from h) (by decide),
    fun _ hs => Option.noConfusion hs⟩

/-- C8: in every state reachable from session creation through join, start,
submit, timer-driven reveal (which advances to the next question or ends the
game) and non-fatal leave, the round index never exceeds the question count,
and a `finished` session holds no pending round timer. -/
theorem C8_lifecycle_invariant (code host_name : String) (ws : Nat)
    (questions : List Question) (question_ids : List Nat)
    (categories difficulty : String) (r : RealTimeRoom)
    (h : Reachable
      (initRoom code host_name ws questions question_ids categories difficulty)
      r) :
    r.current_question_index ≤ r.questions.length ∧
    (r.status = "finished" →
      ∀ s, r.countdown_task ≠ some (TimerTask.pending s)) := by
  have hInv : Inv r := by
    induction h with
    | refl =>
      exact inv_initRoom code host_name ws questions question_ids
        categories difficulty
    | tail hreach hstep ih => exact inv_step ih hstep
  refine ⟨hInv.1, ?_⟩
  intro hfin s hs
  have := hInv.2.2 s hs
  rw [hfin] at this
  exact absurd this (by decide)

/-- C8 witness: the invariant at the freshly created fixture session. -/
theorem C8_lifecycle_invariant_witness :
    (initRoom "R1" "Ann" 1 [qFix] [42] "" "progressive").current_question_index ≤
      (initRoom "R1" "Ann" 1 [qFix] [42] "" "progressive").questions.length ∧
    ((initRoom "R1" "Ann" 1 [qFix] [42] "" "progressive").status = "finished" →
      ∀ s, (initRoom "R1" "Ann" 1 [qFix] [42] "" "progressive").countdown_task ≠
        some (TimerTask.pending s)) :=
  C8_lifecycle_invariant "R1" "Ann" 1 [qFix] [42] "" "progressive" _
    Reachable.refl

/-- C3 counterexample: the interleaving in which the timer wakes from its
sleep while `submit_answer` is suspended in the `player_answered` broadcast
(after recording the last answer, before re-checking and cancelling) makes
BOTH the timer path and the early-completion path invoke `show_answer` for
the same round: the claim that the two paths cannot both trigger the reveal
is false on the code (there is no one-shot guard). -/
theorem C3_counterexample_double_reveal :
    ∃ s, RaceReach (raceInit 15) s ∧ s.timerRevealed = true ∧
      s.submitRevealed = true ∧ s.revealCount = 2 := by
  have h1 : RaceStep (raceInit 15)
      ⟨TimerPc.sleeping 15, SubmitPc.broadcasting, true, true, false, [],
        false, false⟩ :=
    RaceStep.sRecord _ rfl rfl
  have h2 : RaceStep
      ⟨TimerPc.sleeping 15, SubmitPc.broadcasting, true, true, false, [],
        false, false⟩
      ⟨TimerPc.checking 15, SubmitPc.broadcasting, true, true, false, [],
        false, false⟩ :=
    RaceStep.tWake _ 15 rfl rfl
  have h3 : RaceStep
      ⟨TimerPc.checking 15, SubmitPc.broadcasting, true, true, false, [],
        false, false⟩
      ⟨TimerPc.dead, SubmitPc.broadcasting, true, false, false, [],
        true, false⟩ :=
    RaceStep.tBreakReveal _ 15 rfl rfl
  have h4 : RaceStep
      ⟨TimerPc.dead, SubmitPc.broadcasting, true, false, false, [],
        true, false⟩
      ⟨TimerPc.dead, SubmitPc.checkingAll, true, false, false, [],
        true, false⟩ :=
    RaceStep.sResume _ rfl
  have h5 : RaceStep
      ⟨TimerPc.dead, SubmitPc.checkingAll, true, false, false, [],
        true, false⟩
      ⟨TimerPc.dead, SubmitPc.done, true, false, true, [], true, true⟩ :=
    RaceStep.sReveal _ rfl rfl
  exact ⟨_, RaceReach.tail (RaceReach.tail (RaceReach.tail
    (RaceReach.tail (RaceReach.tail RaceReach.refl h1) h2) h3) h4) h5,
    rfl, rfl, rfl⟩

theorem raceReach_flags (n : Nat) (s : RaceState)
    (h : RaceReach (raceInit n) s) :
    (s.spc = SubmitPc.done → s.timerRevealed = true ∨ s.submitRevealed = true) ∧
    (s.playing = false → s.timerRevealed = true ∨ s.submitRevealed = true) := by
  induction h with
  | refl =>
    exact ⟨fun h => by simp [raceInit] at h, fun h => by simp [raceInit] at h⟩
  | tail hr hs ih =>
    cases hs <;> constructor <;> intro hh <;> simp_all

/-- C3 (amended): once every participant has answered (the moment the last
answer is recorded), the timer emits no further tick broadcasts; a
cancellation delivered while the timer is parked at either of its suspension
points kills it with no further effect; the reveal routine is invoked at
least once (whenever the submit task completes) and at most twice — not
exactly once as claimed, since the wake-and-check race of the counterexample
can make both paths invoke it; and the prompt-cancellation interleaving does
realize the claimed behaviour: reveal exactly once, before natural expiry,
with no tick broadcast at all. -/
theorem C3_race_amended :
    (∀ s s', RaceStep s s' → s.allAnswered = true → s'.ticks = s.ticks) ∧
    (∀ s s' r, RaceStep s s' → s.cancelRequested = true →
      s.tpc = TimerPc.sleeping r →
      s'.tpc = TimerPc.sleeping r ∨ s' = { s with tpc := TimerPc.dead }) ∧
    (∀ s s' r, RaceStep s s' → s.cancelRequested = true →
      s.tpc = TimerPc.ticking r →
      s'.tpc = TimerPc.ticking r ∨ s' = { s with tpc := TimerPc.dead }) ∧
    (∀ n s, RaceReach (raceInit n) s →
      s.revealCount ≤ 2 ∧ (s.spc = SubmitPc.done → 1 ≤ s.revealCount)) ∧
    (∃ s, RaceReach (raceInit 15) s ∧ s.revealCount = 1 ∧
      s.submitRevealed = true ∧ s.timerRevealed = false ∧ s.ticks = [] ∧
      s.tpc = TimerPc.dead ∧ s.spc = SubmitPc.done) := by
  refine ⟨?_, ?_, ?_, ?_, ?_⟩
  · intro s s' hstep hall
    cases hstep <;> simp_all
  · intro s s' r hstep hc htpc
    cases hstep <;> simp_all
  · intro s s' r hstep hc htpc
    cases hstep <;> simp_all
  · intro n s h
    have hflags := raceReach_flags n s h
    constructor
    · unfold RaceState.revealCount
      split <;> split <;> omega
    · intro hdone
      rcases hflags.1 hdone with htr | hsr
      · simp [RaceState.revealCount, htr]
      · simp only [RaceState.revealCount, hsr]
        split <;> simp
  · have h1 : RaceStep (raceInit 15)
        ⟨TimerPc.sleeping 15, SubmitPc.broadcasting, true, true, false, [],
          false, false⟩ :=
      RaceStep.sRecord _ rfl rfl
    have h2 : RaceStep
        ⟨TimerPc.sleeping 15, SubmitPc.broadcasting, true, true, false, [],
          false, false⟩
        ⟨TimerPc.sleeping 15, SubmitPc.checkingAll, true, true, false, [],
          false, false⟩ :=
      RaceStep.sResume _ rfl
    have h3 : RaceStep
        ⟨TimerPc.sleeping 15, SubmitPc.checkingAll, true, true, false, [],
          false, false⟩
        ⟨TimerPc.sleeping 15, SubmitPc.done, true, false, true, [],
          false, true⟩ :=
      RaceStep.sReveal _ rfl rfl
    have h4 : RaceStep
        ⟨TimerPc.sleeping 15, SubmitPc.done, true, false, true, [],
          false, true⟩
        ⟨TimerPc.dead, SubmitPc.done, true, false, true, [], false, true⟩ :=
      RaceStep.tCancelSleep _ 15 rfl rfl
    exact ⟨_, RaceReach.tail (RaceReach.tail (RaceReach.tail
      (RaceReach.tail RaceReach.refl h1) h2) h3) h4,
      rfl, rfl, rfl, rfl, rfl, rfl⟩

/-- C3 witness: the reveal-count bound at the initial race state, and a
cancelled sleeping timer leaving the tick log untouched. -/
theorem C3_race_amended_witness :
    ((raceInit 15).revealCount ≤ 2 ∧
      ((raceInit 15).spc = SubmitPc.done → 1 ≤ (raceInit 15).revealCount)) ∧
    ((⟨TimerPc.dead, SubmitPc.recording, true, true, true, [], false, false⟩ :
        RaceState).ticks =
      (⟨TimerPc.sleeping 15, SubmitPc.recording, true, true, true, [], false,
        false⟩ : RaceState).ticks) := by
  constructor
  · exact C3_race_amended.2.2.2.1 15 (raceInit 15) RaceReach.refl
  · exact C3_race_amended.1 _ _ (RaceStep.tCancelSleep _ 15 rfl rfl) rfl

end BrainRace
